import Mathlib

/-!
Verification of the mirascope repository (OpenAI core utilities in
`mirascope/core/openai/_utils.py`, the base ops utilities in
`mirascope/base/ops_utils.py`, and the OpenAI stream wrapper in
`mirascope/core/openai/stream.py`) against its natural-language
specification, via a shallow embedding of the relevant Python functions
into Lean.

Python dictionaries over string keys are modelled as association lists
with Python's `dict` semantics (`dictLookup`, `dictInsert`, `dictUpdate`
mirroring `d[k]`, `d[k] = v` and `d1 |= d2`).  Python exceptions are
modelled with `Except PyError`.  Python floats in the static pricing
table are modelled as exact rationals.
-/

namespace Mirascope

/-- Python errors raised by the embedded code paths. -/
inductive PyError where
  | unknownRole (role : String)
  | missingArgument (name : String)
  | unterminatedPlaceholder
  | assertionFailed (msg : String)
  | valueError (msg : String)
  deriving DecidableEq

/-- Model of a Python `dict[str, V]` as an association list in insertion
order; lookup returns the value of the first matching key. -/
abbrev PyDict (V : Type) := List (String × V)

/-- Lookup a key in a Python dict model. -/
def dictLookup {V : Type} (d : PyDict V) (k : String) : Option V :=
  match d with
  | [] => none
  | (k2, v) :: rest => if k = k2 then some v else dictLookup rest k

/-- Python `d[k] = v`: overwrite the value for an existing key in place,
otherwise append the new binding at the end (CPython insertion order). -/
def dictInsert {V : Type} (d : PyDict V) (k : String) (v : V) : PyDict V :=
  match d with
  | [] => [(k, v)]
  | (k2, v2) :: rest =>
      if k = k2 then (k2, v) :: rest else (k2, v2) :: dictInsert rest k v

/-- Python `d1 |= d2` (equivalently `d1.update(d2)`): every binding of `d2`
is written into `d1` in order, so on a key collision the value coming from
`d2` wins. -/
def dictUpdate {V : Type} (d1 : PyDict V) : PyDict V → PyDict V
  | [] => d1
  | (k, v) :: rest => dictUpdate (dictInsert d1 k v) rest

/-! ## Cost calculation: `openai_api_calculate_cost` in
`mirascope/core/openai/_utils.py` -/

/-- Token usage as reported by the OpenAI API (`CompletionUsage`). -/
structure CompletionUsage where
  prompt_tokens : Nat
  completion_tokens : Nat
  total_tokens : Nat
  deriving DecidableEq

/-- Per-token prices of one model row of the static pricing table; the
Python float literals are modelled as exact rationals. -/
structure ModelPricing where
  prompt : ℚ
  completion : ℚ
  deriving DecidableEq

/-- The static `pricing` table of `openai_api_calculate_cost`, verbatim. -/
def pricing : PyDict ModelPricing :=
  [ ("gpt-4o", ⟨5 / 1000000, 15 / 1000000⟩),
    ("gpt-4o-2024-05-13", ⟨5 / 1000000, 15 / 1000000⟩),
    ("gpt-4-turbo", ⟨10 / 1000000, 30 / 1000000⟩),
    ("gpt-4-turbo-2024-04-09", ⟨10 / 1000000, 30 / 1000000⟩),
    ("gpt-3.5-turbo-0125", ⟨5 / 10000000, 15 / 10000000⟩),
    ("gpt-3.5-turbo-1106", ⟨1 / 1000000, 2 / 1000000⟩),
    ("gpt-4-1106-preview", ⟨10 / 1000000, 30 / 1000000⟩),
    ("gpt-4", ⟨3 / 1000000, 6 / 1000000⟩),
    ("gpt-3.5-turbo-4k", ⟨15 / 1000000, 20 / 1000000⟩),
    ("gpt-3.5-turbo-16k", ⟨3 / 1000000, 4 / 1000000⟩),
    ("gpt-4-8k", ⟨3 / 1000000, 6 / 1000000⟩),
    ("gpt-4-32k", ⟨6 / 1000000, 12 / 1000000⟩),
    ("text-embedding-3-small", ⟨2 / 100000000, 2 / 100000000⟩),
    ("text-embedding-ada-002", ⟨1 / 10000000, 1 / 10000000⟩),
    ("text-embedding-3-large", ⟨13 / 100000000, 13 / 100000000⟩) ]

/-- Embedding of `openai_api_calculate_cost(usage, model)`: returns `none`
when `usage is None` or when the model is absent from the pricing table
(the `except KeyError` path), otherwise
`prompt_tokens * prompt_price + completion_tokens * completion_price`. -/
def openai_api_calculate_cost (usage : Option CompletionUsage)
    (model : String := "gpt-3.5-turbo-16k") : Option ℚ :=
  match usage with
  | none => none
  | some u =>
      match dictLookup pricing model with
      | none => none
      | some p =>
          some ((u.prompt_tokens : ℚ) * p.prompt + (u.completion_tokens : ℚ) * p.completion)

/-! ## `get_class_vars` in `mirascope/base/ops_utils.py` -/

/-- Model of a Python pydantic `BaseModel` class for `get_class_vars`: the
list of its declared class-variable names (`cls.__class_vars__`) and the
attribute map (`getattr(cls.__class__, name)`). -/
structure PyClass (V : Type) where
  class_vars : List String
  attrs : String → V

/-- Loop body of `get_class_vars`: `for classvars in cls.__class_vars__:
if not classvars == "api_key": class_vars[classvars] = getattr(...)`. -/
def get_class_vars_loop {V : Type} (attrs : String → V) :
    List String → PyDict V → PyDict V
  | [], class_vars => class_vars
  | cv :: rest, class_vars =>
      if cv = "api_key" then get_class_vars_loop attrs rest class_vars
      else get_class_vars_loop attrs rest (dictInsert class_vars cv (attrs cv))

/-- Embedding of `get_class_vars(cls)`. -/
def get_class_vars {V : Type} (cls : PyClass V) : PyDict V :=
  get_class_vars_loop cls.attrs cls.class_vars []

/-! ## `mirascope_span` in `mirascope/base/ops_utils.py` -/

/-- Result of the `handle_before_call` hook, distinguished by the
`isinstance(before_call, AbstractContextManager)` check in the wrappers:
entering the context manager yields its resource. -/
inductive BeforeResult (γ : Type) where
  | contextManager (resource : γ)
  | plainValue (value : γ)

/-- Observable hook event of a wrapped plain method: `handle_after_call`
invoked with the method result and the before-hook value (the entered
resource in the context-manager branch, otherwise `before_call` itself,
which is `none` when no before hook was supplied). -/
inductive SpanEvent (α γ : Type) where
  | afterCall (result : α) (before_value : Option γ)

/-- Embedding of the `wrapper` closure of `mirascope_span` (the plain
synchronous shape): the underlying method is modelled as a function that
either returns a value or raises.  The second component is the list of
after-hook invocations; when the underlying method raises, the exception
propagates and the after hook does not run. -/
def mirascope_span_wrapper {σ κ α γ : Type} (fn : σ → κ → Except PyError α)
    (handle_before_call : Option (σ → κ → BeforeResult γ))
    (has_after_call : Bool) (self : σ) (kwargs : κ) :
    Except PyError α × List (SpanEvent α γ) :=
  let before_call : Option (BeforeResult γ) :=
    match handle_before_call with
    | some h => some (h self kwargs)
    | none => none
  match before_call with
  | some (BeforeResult.contextManager r) =>
      match fn self kwargs with
      | Except.error e => (Except.error e, [])
      | Except.ok result =>
          (Except.ok result,
           if has_after_call then [SpanEvent.afterCall result (some r)] else [])
  | some (BeforeResult.plainValue v) =>
      match fn self kwargs with
      | Except.error e => (Except.error e, [])
      | Except.ok result =>
          (Except.ok result,
           if has_after_call then [SpanEvent.afterCall result (some v)] else [])
  | none =>
      match fn self kwargs with
      | Except.error e => (Except.error e, [])
      | Except.ok result =>
          (Except.ok result,
           if has_after_call then [SpanEvent.afterCall result none] else [])

/-- Observable event of a wrapped generator method: a value yielded to the
caller, or the after hook invoked with the accumulated `output` list. -/
inductive GenEvent (α : Type) where
  | yielded (value : α)
  | afterCall (output : List α)
  deriving DecidableEq

/-- The accumulation loop of `wrapper_generator`: `output = []`, then
`for value in result: output.append(value); yield value`.  Returns the
emitted events together with the final `output` list. -/
def generator_loop {α : Type} : List α → List α → List (GenEvent α) × List α
  | [], output => ([], output)
  | v :: rest, output =>
      let step := generator_loop rest (output ++ [v])
      (GenEvent.yielded v :: step.1, step.2)

/-- Embedding of the `wrapper_generator` closure of `mirascope_span`: the
underlying generator is modelled by the full sequence of values it yields.
After the loop is exhausted, `handle_after_call` (when supplied) receives
the accumulated `output`. -/
def wrapper_generator {σ κ α : Type} (fn : σ → κ → List α) (has_after_call : Bool)
    (self : σ) (kwargs : κ) : List (GenEvent α) :=
  let result := fn self kwargs
  let step := generator_loop result []
  step.1 ++ (if has_after_call then [GenEvent.afterCall step.2] else [])

/-- Embedding of the `wrapper_generator_async` closure of `mirascope_span`:
its `async for` loop has exactly the same accumulation structure as the
synchronous `for` loop of `wrapper_generator`. -/
def wrapper_generator_async {σ κ α : Type} (fn : σ → κ → List α) (has_after_call : Bool)
    (self : σ) (kwargs : κ) : List (GenEvent α) :=
  let result := fn self kwargs
  let step := generator_loop result []
  step.1 ++ (if has_after_call then [GenEvent.afterCall step.2] else [])

/-- Calling convention of a Python callable, as classified by
`inspect.isasyncgenfunction` / `iscoroutinefunction` / `isgeneratorfunction`. -/
inductive FnKind where
  | syncFunction
  | coroutine
  | syncGenerator
  | asyncGenerator
  deriving DecidableEq

/-- The dispatch at the bottom of `mirascope_span`: which wrapper shape is
returned for a method of each calling convention.  `wrapper_generator_async`
is itself an async generator function, `wrapper_async` a coroutine function,
`wrapper_generator` a generator function and `wrapper` a plain function. -/
def mirascope_span_kind : FnKind → FnKind
  | FnKind.asyncGenerator => FnKind.asyncGenerator
  | FnKind.coroutine => FnKind.coroutine
  | FnKind.syncGenerator => FnKind.syncGenerator
  | FnKind.syncFunction => FnKind.syncFunction

/-! ## Data model shared by `setup_call`, `setup_extract` and the stream
wrapper -/

/-- Chat prompt message (`ChatCompletionMessageParam`): a role tag and the
message text. -/
structure Message where
  role : String
  content : String
  deriving DecidableEq

/-- Model of an `OpenAITool` subclass: its name and the JSON schema text
`json.dumps(tool.model_json_schema(), indent=2)` of its fields. -/
structure OpenAITool where
  name : String
  json_schema : String
  deriving DecidableEq

/-- Provider-facing tool schema dict produced by `tool_type.tool_schema()`. -/
structure ChatCompletionToolParam where
  name : String
  json_schema : String
  deriving DecidableEq

/-- Embedding of `OpenAITool.tool_schema()`. -/
def tool_schema (t : OpenAITool) : ChatCompletionToolParam :=
  ⟨t.name, t.json_schema⟩

/-- A value stored in the call-params / call-kwargs dict: a string, a nested
string dict (e.g. `response_format`), a tool schema list, or Python `None`. -/
inductive ParamValue where
  | str (s : String)
  | dict (d : List (String × String))
  | toolList (ts : List ChatCompletionToolParam)
  | noneVal
  deriving DecidableEq

/-! ## `OpenAIStream.construct_call_response` in
`mirascope/core/openai/stream.py` -/

/-- One entry of a `tool_calls` list
(`ChatCompletionMessageToolCallParam`). -/
structure ToolCallParam where
  id : String
  function_name : String
  arguments : String
  deriving DecidableEq

/-- The aggregated assistant message stored on a consumed stream
(`ChatCompletionAssistantMessageParam`); `content` and `tool_calls` may be
absent. -/
structure AssistantMessageParam where
  role : String
  content : Option String
  tool_calls : Option (List ToolCallParam)
  deriving DecidableEq

/-- Response message (`ChatCompletionMessage`). -/
structure ChatCompletionMessage where
  role : String
  content : Option String
  tool_calls : List ToolCallParam
  deriving DecidableEq

/-- One response choice (`Choice`). -/
structure Choice where
  finish_reason : String
  index : Nat
  message : ChatCompletionMessage
  deriving DecidableEq

/-- A full chat completion response (`ChatCompletion`). -/
structure ChatCompletion where
  id : String
  model : String
  choices : List Choice
  created : Nat
  object : String
  usage : Option CompletionUsage
  deriving DecidableEq

/-- The normalized response object (`OpenAICallResponse`). -/
structure OpenAICallResponse where
  response : ChatCompletion
  tool_types : Option (List OpenAITool)
  prompt_template : Option String
  fn_args : PyDict String
  messages : List Message
  call_params : PyDict ParamValue
  call_kwargs : PyDict ParamValue
  user_message_param : Option Message
  start_time : Nat
  end_time : Nat
  deriving DecidableEq

/-- State of an `OpenAIStream` object at the time
`construct_call_response` is called.  `message_param` is the aggregated
final assistant message; it is only set once the stream has been fully
iterated (the `hasattr(self, "message_param")` check). -/
structure OpenAIStreamState where
  message_param : Option AssistantMessageParam := none
  input_tokens : Option Nat := none
  output_tokens : Option Nat := none
  id : Option String := none
  model : String := ""
  finish_reasons : List String := []
  tool_types : Option (List OpenAITool) := none
  prompt_template : Option String := none
  fn_args : Option (PyDict String) := none
  messages : List Message := []
  call_params : PyDict ParamValue := []
  call_kwargs : PyDict ParamValue := []
  user_message_param : Option Message := none
  start_time : Nat := 0
  end_time : Nat := 0

/-- Python truthiness of an optional token count: `None` and `0` are falsy. -/
def natOptTruthy (o : Option Nat) : Bool :=
  match o with
  | some n => n != 0
  | none => false

/-- Python `self.id if self.id else ""`: `None` and the empty string both
give `""`. -/
def pyStrOrEmpty (o : Option String) : String :=
  match o with
  | some s => if s = "" then "" else s
  | none => ""

/-- Embedding of `OpenAIStream.construct_call_response`: raises
`ValueError` when the aggregated `message_param` is absent (stream not yet
consumed), otherwise assembles the `ChatCompletion` and wraps it in an
`OpenAICallResponse`. -/
def construct_call_response (s : OpenAIStreamState) : Except PyError OpenAICallResponse :=
  match s.message_param with
  | none =>
      Except.error
        (PyError.valueError "No stream response, check if the stream has been consumed.")
  | some mp =>
      let message : ChatCompletionMessage :=
        { role := mp.role
          content := mp.content
          tool_calls := mp.tool_calls.getD [] }
      let usage : Option CompletionUsage :=
        if !natOptTruthy s.input_tokens && !natOptTruthy s.output_tokens then none
        else
          some
            { prompt_tokens := s.input_tokens.getD 0
              completion_tokens := s.output_tokens.getD 0
              total_tokens := s.input_tokens.getD 0 + s.output_tokens.getD 0 }
      let completion : ChatCompletion :=
        { id := pyStrOrEmpty s.id
          model := s.model
          choices :=
            [{ finish_reason := s.finish_reasons.headD "stop"
               index := 0
               message := message }]
          created := 0
          object := "chat.completion"
          usage := usage }
      Except.ok
        { response := completion
          tool_types := s.tool_types
          prompt_template := s.prompt_template
          fn_args := s.fn_args.getD []
          messages := s.messages
          call_params := s.call_params
          call_kwargs := s.call_kwargs
          user_message_param := s.user_message_param
          start_time := s.start_time
          end_time := s.end_time }

/-- Modelled from the spec: the `BaseStream` base class (not under `src/`)
iterates provider chunks and, once iteration completes, stores the
aggregated final assistant message on the stream object as
`self.message_param` ("a Stream aggregates chunks into an eventual
CallResponse-equivalent when fully consumed").  A stream is therefore
fully consumed exactly when this aggregated message is present. -/
def streamFullyConsumed (s : OpenAIStreamState) : Prop :=
  s.message_param ≠ none

/-! ## Template parser (spec-modelled) and `setup_call` / `setup_extract`
in `mirascope/core/openai/_utils.py` -/

/-- Split a character list at every occurrence of a separator character;
always returns at least one (possibly empty) segment. -/
def splitChar (sep : Char) : List Char → List (List Char)
  | [] => [[]]
  | c :: cs =>
      match splitChar sep cs with
      | [] => [[c]]
      | cur :: rest => if c = sep then [] :: cur :: rest else (c :: cur) :: rest

/-- Join segments with a separator list in between (inverse of split). -/
def joinSep (sep : List Char) : List (List Char) → List Char
  | [] => []
  | [l] => l
  | l :: rest => l ++ sep ++ joinSep sep rest

/-- Concatenate a list of character lists. -/
def concatChars : List (List Char) → List Char
  | [] => []
  | l :: rest => l ++ concatChars rest

/-- Strip leading and trailing whitespace. -/
def trimChars (l : List Char) : List Char :=
  ((l.dropWhile Char.isWhitespace).reverse.dropWhile Char.isWhitespace).reverse

/-- Substitute one segment following a `\x7b` in the template text: the
part before the closing `\x7d` is the placeholder name, looked up in the
argument mapping; a name absent from the arguments is a `MissingArgument`
error, a segment with no closing brace is an error. -/
def substituteSegment (attrs : PyDict String) (seg : List Char) :
    Except PyError (List Char) :=
  match splitChar '}' seg with
  | [] => Except.error PyError.unterminatedPlaceholder
  | [_] => Except.error PyError.unterminatedPlaceholder
  | name :: restParts =>
      match dictLookup attrs (String.mk name) with
      | none => Except.error (PyError.missingArgument (String.mk name))
      | some v => Except.ok (v.toList ++ joinSep ['}'] restParts)

/-- Substitute every `\x7bname\x7d` placeholder in a message text with the
corresponding (stringified) argument value. -/
def substitutePlaceholders (attrs : PyDict String) (text : List Char) :
    Except PyError (List Char) :=
  match splitChar '{' text with
  | [] => Except.ok text
  | first :: segs =>
      match segs.mapM (substituteSegment attrs) with
      | Except.error e => Except.error e
      | Except.ok pieces => Except.ok (first ++ concatChars pieces)

/-- The fixed vocabulary of role keywords of the data model
(system/user/assistant/tool/model). -/
def roleVocabulary : List String := ["system", "user", "assistant", "tool", "model"]

/-- Result of scanning one template line for a leading role marker. -/
inductive MarkerScan where
  | marker (role : String) (rest : List Char)
  | unknown (word : String)
  | text

/-- Scan one line for a role marker: a keyword of the fixed vocabulary,
case-insensitive, at the start of the line (leading indentation ignored,
templates being dedented) and followed by a colon.  A vocabulary keyword
outside the caller's allow-list is reported as an unknown role. -/
def scanRoleMarker (roles : List String) (line : List Char) : MarkerScan :=
  let chars := line.dropWhile Char.isWhitespace
  let w := chars.takeWhile (fun c => c.isAlpha)
  let rest := chars.drop w.length
  let word := String.mk (w.map Char.toLower)
  match rest with
  | ':' :: afterColon =>
      if word ∈ roleVocabulary then
        if word ∈ roles then MarkerScan.marker word afterColon
        else MarkerScan.unknown word
      else MarkerScan.text
  | _ => MarkerScan.text

/-- A message whose content is still raw (unsubstituted) template text. -/
structure RawMessage where
  role : String
  content : List Char

/-- Accumulator while scanning template lines: finished messages, the role
of the message being built, and its pending lines. -/
structure ParseAcc where
  messages : List RawMessage
  currentRole : String
  pending : List (List Char)

/-- Close the message currently being built; whitespace-only content
produces no message. -/
def flushPending (acc : ParseAcc) : List RawMessage :=
  let content := trimChars (joinSep ['\n'] acc.pending)
  if content = [] then acc.messages else acc.messages ++ [⟨acc.currentRole, content⟩]

/-- Scan the template lines in order, starting a new message at every role
marker; text before the first marker belongs to the default "user" role. -/
def parse_prompt_lines (roles : List String) :
    List (List Char) → ParseAcc → Except PyError (List RawMessage)
  | [], acc => Except.ok (flushPending acc)
  | line :: rest, acc =>
      match scanRoleMarker roles line with
      | MarkerScan.marker role afterColon =>
          parse_prompt_lines roles rest ⟨flushPending acc, role, [afterColon]⟩
      | MarkerScan.unknown word => Except.error (PyError.unknownRole word)
      | MarkerScan.text =>
          parse_prompt_lines roles rest ⟨acc.messages, acc.currentRole, acc.pending ++ [line]⟩

/-- Modelled from the spec: `_utils.parse_prompt_messages` of the core base
module is not under `src/`; per the spec the template is scanned for role
markers at line starts (case-insensitive fixed vocabulary) beginning a new
message, uninterrupted leading text is attributed to the default "user"
role, a marker outside the allow-list aborts with `UnknownRole`, and
`\x7bname\x7d` placeholders are substituted from the argument mapping with
`MissingArgument` raised for an unresolved name. -/
def parse_prompt_messages (roles : List String) (template : String)
    (attrs : PyDict String) : Except PyError (List Message) :=
  match parse_prompt_lines roles (splitChar '\n' template.toList) ⟨[], "user", []⟩ with
  | Except.error e => Except.error e
  | Except.ok raw =>
      raw.mapM (fun m =>
        match substitutePlaceholders attrs m.content with
        | Except.error e => Except.error e
        | Except.ok c => Except.ok (⟨m.role, String.mk c⟩ : Message))

/-- Model of the decorated Python function: all `setup_call` reads from it
is its docstring (`inspect.getdoc(fn)`). -/
structure PromptFn where
  docstring : Option String
  deriving DecidableEq

/-- Model of `OpenAICallFunctionReturn` (`fn_return`): a typed dict whose
keys `computed_fields`, `tools`, `messages` and `call_params` are all
optional. -/
structure FnReturn where
  computed_fields : Option (PyDict String) := none
  tools : Option (List OpenAITool) := none
  messages : Option (List Message) := none
  call_params : Option (PyDict ParamValue) := none
  deriving DecidableEq

/-- The role allow-list `setup_call` passes to the template parser. -/
def defaultOpenAIRoles : List String := ["system", "user", "assistant", "tool"]

/-- The argument mapping used for placeholder substitution: the Python
`if computed_fields: fn_args |= computed_fields` (truthiness: `None` and
the empty dict skip the merge). -/
def substitutionArgs (fn_args : PyDict String)
    (computed_fields : Option (PyDict String)) : PyDict String :=
  match computed_fields with
  | some cf => if cf.isEmpty then fn_args else dictUpdate fn_args cf
  | none => fn_args

/-- The `if not messages:` branch of `setup_call`: assert the docstring
exists, capture it as the prompt template, merge computed fields into the
arguments and run the template parser. -/
def setup_call_template_branch (fn : PromptFn) (fn_args : PyDict String)
    (computed_fields : Option (PyDict String)) :
    Except PyError (Option String × List Message) :=
  match fn.docstring with
  | none => Except.error (PyError.assertionFailed "The function must have a docstring.")
  | some prompt_template =>
      match parse_prompt_messages defaultOpenAIRoles prompt_template
          (substitutionArgs fn_args computed_fields) with
      | Except.error e => Except.error e
      | Except.ok ms => Except.ok (some prompt_template, ms)

/-- Embedding of `setup_call(fn, fn_args, fn_return, tools, call_params)`.
The dynamic return may override the tool list and call params and may
supply an explicit message list; otherwise messages come from parsing the
docstring template.  The `convert_base_model_to_base_tool` /
`convert_function_to_base_tool` helpers (base `_utils`, not under `src/`)
are modelled as the identity on the already-derived tool representation. -/
def setup_call (fn : PromptFn) (fn_args : PyDict String) (fn_return : Option FnReturn)
    (tools : Option (List OpenAITool)) (call_params : PyDict ParamValue) :
    Except PyError
      (Option String × List Message × Option (List OpenAITool) × PyDict ParamValue) :=
  let call_kwargs := call_params
  let computed_fields :=
    match fn_return with
    | some fr => fr.computed_fields
    | none => none
  let tools :=
    match fn_return with
    | some fr =>
        match fr.tools with
        | some t => some t
        | none => tools
    | none => tools
  let messages :=
    match fn_return with
    | some fr => fr.messages
    | none => none
  let call_kwargs :=
    match fn_return with
    | some fr =>
        match fr.call_params with
        | some dynamic_call_params =>
            if dynamic_call_params.isEmpty then call_kwargs
            else dictUpdate call_kwargs dynamic_call_params
        | none => call_kwargs
    | none => call_kwargs
  match
    (match messages with
     | some ms =>
         if ms.isEmpty then setup_call_template_branch fn fn_args computed_fields
         else Except.ok ((none : Option String), ms)
     | none => setup_call_template_branch fn fn_args computed_fields) with
  | Except.error e => Except.error e
  | Except.ok (prompt_template, messages) =>
      let tool_types : Option (List OpenAITool) :=
        match tools with
        | some ts => if ts.isEmpty then none else some ts
        | none => none
      let call_kwargs :=
        match tool_types with
        | some tts =>
            dictInsert call_kwargs "tools" (ParamValue.toolList (tts.map tool_schema))
        | none => call_kwargs
      Except.ok (prompt_template, messages, tool_types, call_kwargs)

/-- The content of the user message appended in JSON mode: the dedented
f-string instruction followed by
`json.dumps(tool_type.model_json_schema(), indent=2)`. -/
def extraction_instruction (t : OpenAITool) : String :=
  "Extract a valid JSON object instance from the content using this schema:\n\n" ++
    t.json_schema

/-- The walrus condition of `setup_extract`:
`bool(response_format and "type" in response_format and
response_format["type"] == "json_object")`.  A dict holding the key
"type" is nonempty, hence truthy; any non-dict value fails the membership
test. -/
def response_format_json_mode (v : Option ParamValue) : Bool :=
  match v with
  | some (ParamValue.dict d) => dictLookup d "type" == some "json_object"
  | _ => false

/-- Embedding of `setup_extract(fn, fn_args, fn_return, tool, call_params)`:
delegates to `setup_call` with the single extraction tool, then either
suppresses tools and appends the schema instruction message (JSON mode) or
installs the tool schema with `tool_choice = "required"`. -/
def setup_extract (fn : PromptFn) (fn_args : PyDict String) (fn_return : Option FnReturn)
    (tool : OpenAITool) (call_params : PyDict ParamValue) :
    Except PyError (Bool × List Message × PyDict ParamValue) :=
  match setup_call fn fn_args fn_return (some [tool]) call_params with
  | Except.error e => Except.error e
  | Except.ok (_, messages, tool_types, call_kwargs) =>
      match tool_types with
      | some [tool_type] =>
          let response_format := dictLookup call_kwargs "response_format"
          let json_mode := response_format_json_mode response_format
          if json_mode then
            Except.ok (true,
              messages ++ [⟨"user", extraction_instruction tool_type⟩],
              dictInsert call_kwargs "tools" ParamValue.noneVal)
          else
            Except.ok (false, messages,
              dictInsert
                (dictInsert call_kwargs "tools"
                  (ParamValue.toolList [tool_schema tool_type]))
                "tool_choice" (ParamValue.str "required"))
      | _ => Except.error (PyError.valueError "expected exactly one tool type")

/-! ## Partial structured-output decoding: `extract_tool_return` in
`mirascope/core/openai/_utils.py`.

The two JSON decoding backends used by `extract_tool_return` are not under
`src/`: the strict path is pydantic's `model_validate_json` and the
lenient path is `jiter.from_json(..., partial_mode="trailing-strings")`
combined with `_partial.partial` (mirascope base, sentinel-filling).
Both are modelled from the spec over the fragment language of flat JSON
objects with string keys and string values (no escape sequences), the
shape in which streamed tool arguments arrive: the lenient parser must
"tolerate trailing incomplete string literals and missing closing
brackets, filling absent fields with a 'not yet known' sentinel rather
than failing". -/

/-- Parser state for flat JSON objects with string keys/values, carrying
the completed fields.  The machine is deterministic, one character at a
time; `jerr` (malformed input) is absorbing. -/
inductive JState where
  | start
  | expectKeyOrEnd (fields : List (String × String))
  | inKey (fields : List (String × String)) (keyAcc : List Char)
  | expectColon (fields : List (String × String)) (key : String)
  | expectValue (fields : List (String × String)) (key : String)
  | inValue (fields : List (String × String)) (key : String) (valAcc : List Char)
  | expectCommaOrEnd (fields : List (String × String))
  | expectKey (fields : List (String × String))
  | jdone (fields : List (String × String))
  | jerr

/-- JSON insignificant whitespace. -/
def isJsonWS (c : Char) : Bool :=
  c = ' ' || c = '\n' || c = '\t' || c = '\r'

/-- One-character transition of the JSON object parser. -/
def jsonStep (s : JState) (c : Char) : JState :=
  match s with
  | JState.start =>
      if isJsonWS c then JState.start
      else if c = '{' then JState.expectKeyOrEnd []
      else JState.jerr
  | JState.expectKeyOrEnd fs =>
      if isJsonWS c then JState.expectKeyOrEnd fs
      else if c = '"' then JState.inKey fs []
      else if c = '}' then JState.jdone fs
      else JState.jerr
  | JState.inKey fs acc =>
      if c = '"' then JState.expectColon fs (String.mk acc.reverse)
      else JState.inKey fs (c :: acc)
  | JState.expectColon fs k =>
      if isJsonWS c then JState.expectColon fs k
      else if c = ':' then JState.expectValue fs k
      else JState.jerr
  | JState.expectValue fs k =>
      if isJsonWS c then JState.expectValue fs k
      else if c = '"' then JState.inValue fs k []
      else JState.jerr
  | JState.inValue fs k acc =>
      if c = '"' then JState.expectCommaOrEnd (fs ++ [(k, String.mk acc.reverse)])
      else JState.inValue fs k (c :: acc)
  | JState.expectCommaOrEnd fs =>
      if isJsonWS c then JState.expectCommaOrEnd fs
      else if c = ',' then JState.expectKey fs
      else if c = '}' then JState.jdone fs
      else JState.jerr
  | JState.expectKey fs =>
      if isJsonWS c then JState.expectKey fs
      else if c = '"' then JState.inKey fs []
      else JState.jerr
  | JState.jdone fs =>
      if isJsonWS c then JState.jdone fs else JState.jerr
  | JState.jerr => JState.jerr

/-- Run the parser over a character list. -/
def jsonRun (cs : List Char) : JState :=
  cs.foldl jsonStep JState.start

/-- Strict decoding (`model_validate_json` path, `allow_partial` false):
only a complete well-formed object is accepted. -/
def parseStrict (s : String) : Option (List (String × String)) :=
  match jsonRun s.toList with
  | JState.jdone fs => some fs
  | _ => none

/-- Modelled from the spec: lenient decoding
(`jiter partial_mode="trailing-strings"`): a fragment that is malformed
fails, but a fragment that merely ends early succeeds with the fields
completed so far; a trailing incomplete string literal is kept as the
(partial) value of its field. -/
def parseLenient (s : String) : Option (List (String × String)) :=
  match jsonRun s.toList with
  | JState.jerr => none
  | JState.jdone fs => some fs
  | JState.start => some []
  | JState.expectKeyOrEnd fs => some fs
  | JState.inKey fs _ => some fs
  | JState.expectColon fs _ => some fs
  | JState.expectValue fs _ => some fs
  | JState.inValue fs k acc => some (fs ++ [(k, String.mk acc.reverse)])
  | JState.expectCommaOrEnd fs => some fs
  | JState.expectKey fs => some fs

/-- A decoded response-model field: either a resolved value or the
"not yet known" sentinel that `_partial.partial` installs as the default
of every field. -/
inductive FieldValue where
  | known (s : String)
  | notYetKnown
  deriving DecidableEq

/-- Embedding of `extract_tool_return(response_model, json_output,
allow_partial)`: the response model is its list of field names; in partial
mode every schema field missing from the (leniently parsed) fragment gets
the sentinel, in strict mode the fragment must parse completely and
supply every schema field. -/
def extract_tool_return (fields : List String) (json_output : String)
    (allow_incomplete : Bool) : Option (List (String × FieldValue)) :=
  if allow_incomplete then
    match parseLenient json_output with
    | none => none
    | some m =>
        some (fields.map (fun f =>
          (f, match dictLookup m f with
              | some v => FieldValue.known v
              | none => FieldValue.notYetKnown)))
  else
    match parseStrict json_output with
    | none => none
    | some m =>
        if fields.all (fun f => (dictLookup m f).isSome) then
          some (fields.map (fun f => (f, FieldValue.known ((dictLookup m f).getD ""))))
        else none

/-! ## Theorems -/

theorem dictLookup_insert {V : Type} (d : PyDict V) (k : String) (v : V) (k2 : String) :
    dictLookup (dictInsert d k v) k2 = if k2 = k then some v else dictLookup d k2 := by
  induction d with
  | nil => simp [dictInsert, dictLookup]
  | cons hd tl ih =>
      obtain ⟨k3, v3⟩ := hd
      by_cases h1 : k = k3
      · subst h1
        by_cases h2 : k2 = k <;> simp [dictInsert, dictLookup, h2]
      · by_cases h2 : k2 = k3
        · subst h2
          have h3 : ¬ k2 = k := fun h => h1 h.symm
          simp [dictInsert, dictLookup, h1, h3]
        · simp [dictInsert, dictLookup, h1, h2, ih]

theorem dictLookup_eq_none_of_not_mem_keys {V : Type} (d : PyDict V) (k : String)
    (h : k ∉ d.map Prod.fst) : dictLookup d k = none := by
  induction d with
  | nil => rfl
  | cons hd tl ih =>
      obtain ⟨k2, v2⟩ := hd
      simp only [List.map_cons, List.mem_cons] at h
      push_neg at h
      simp [dictLookup, h.1, ih h.2]

theorem dictLookup_update_of_lookup_eq_none {V : Type} (d2 : PyDict V) (k : String)
    (h : dictLookup d2 k = none) :
    ∀ d1 : PyDict V, dictLookup (dictUpdate d1 d2) k = dictLookup d1 k := by
  induction d2 with
  | nil => intro d1; rfl
  | cons hd tl ih =>
      obtain ⟨k2, v2⟩ := hd
      intro d1
      simp only [dictLookup] at h
      by_cases hk : k = k2
      · simp [hk] at h
      · simp only [hk, if_false] at h
        simp only [dictUpdate]
        rw [ih h, dictLookup_insert]
        simp [hk]

/-- On a dict with no duplicate keys, `d1 |= d2` maps every key of `d2` to
its `d2` value: the right-hand side of the merge takes precedence. -/
theorem dictLookup_update_of_lookup_eq_some {V : Type} (d2 : PyDict V) (k : String) (v : V)
    (hnd : (d2.map Prod.fst).Nodup) (h : dictLookup d2 k = some v) :
    ∀ d1 : PyDict V, dictLookup (dictUpdate d1 d2) k = some v := by
  induction d2 with
  | nil => simp [dictLookup] at h
  | cons hd tl ih =>
      obtain ⟨k2, v2⟩ := hd
      intro d1
      simp only [List.map_cons, List.nodup_cons] at hnd
      simp only [dictLookup] at h
      by_cases hk : k = k2
      · simp only [hk, if_true, Option.some.injEq] at h
        subst hk
        simp only [dictUpdate]
        rw [dictLookup_update_of_lookup_eq_none tl k
              (dictLookup_eq_none_of_not_mem_keys tl k hnd.1),
            dictLookup_insert]
        simp [h]
      · simp only [hk, if_false] at h
        simp only [dictUpdate]
        exact ih hnd.2 h _

theorem mem_dictInsert {V : Type} (d : PyDict V) (k : String) (v : V) (kv : String × V)
    (h : kv ∈ dictInsert d k v) : kv.1 = k ∨ kv ∈ d := by
  induction d with
  | nil =>
      simp [dictInsert] at h
      simp [h]
  | cons hd tl ih =>
      obtain ⟨k2, v2⟩ := hd
      by_cases hk : k = k2
      · simp only [dictInsert, hk, if_true, List.mem_cons] at h
        rcases h with h | h
        · left; simp [h, hk]
        · right; simp [h]
      · simp only [dictInsert, hk, if_false, List.mem_cons] at h
        rcases h with h | h
        · right; simp [h]
        · rcases ih h with h2 | h2
          · left; exact h2
          · right; simp [h2]

theorem get_class_vars_loop_no_api_key {V : Type} (attrs : String → V) (l : List String) :
    ∀ acc : PyDict V, (∀ kv ∈ acc, kv.1 ≠ "api_key") →
      ∀ kv ∈ get_class_vars_loop attrs l acc, kv.1 ≠ "api_key" := by
  induction l with
  | nil => intro acc hacc; exact hacc
  | cons cv rest ih =>
      intro acc hacc
      by_cases hcv : cv = "api_key"
      · simp only [get_class_vars_loop, hcv, if_true]
        exact ih acc hacc
      · simp only [get_class_vars_loop, hcv, if_false]
        refine ih _ ?_
        intro kv hkv
        rcases mem_dictInsert _ _ _ _ hkv with h | h
        · rw [h]; exact hcv
        · exact hacc kv h

theorem get_class_vars_loop_congr {V : Type} (a1 a2 : String → V)
    (h : ∀ k, k ≠ "api_key" → a1 k = a2 k) (l : List String) :
    ∀ acc : PyDict V, get_class_vars_loop a1 l acc = get_class_vars_loop a2 l acc := by
  induction l with
  | nil => intro acc; rfl
  | cons cv rest ih =>
      intro acc
      by_cases hcv : cv = "api_key"
      · simp only [get_class_vars_loop, hcv, if_true]
        exact ih acc
      · simp only [get_class_vars_loop, hcv, if_false]
        rw [h cv hcv]
        exact ih _

theorem generator_loop_spec {α : Type} (values : List α) :
    ∀ output : List α,
      generator_loop values output = (values.map GenEvent.yielded, output ++ values) := by
  induction values with
  | nil => intro output; simp [generator_loop]
  | cons v rest ih => intro output; simp [generator_loop, ih]

/-- C4: `mirascope_span` preserves each method's calling convention, and for
the generator shapes the wrapper yields exactly the underlying values, in
order, to the caller; the after hook runs once, strictly after every yield,
and receives exactly that sequence. -/
theorem mirascope_span_preserves_convention_and_accumulation :
    (∀ k : FnKind, mirascope_span_kind k = k) ∧
    (∀ (σ κ α : Type) (fn : σ → κ → List α) (self : σ) (kwargs : κ),
      wrapper_generator fn true self kwargs =
        (fn self kwargs).map GenEvent.yielded ++
          [GenEvent.afterCall (fn self kwargs)]) ∧
    (∀ (σ κ α : Type) (fn : σ → κ → List α) (self : σ) (kwargs : κ),
      wrapper_generator_async fn true self kwargs =
        (fn self kwargs).map GenEvent.yielded ++
          [GenEvent.afterCall (fn self kwargs)]) := by
  refine ⟨fun k => by cases k <;> rfl, ?_, ?_⟩ <;>
    · intro σ κ α fn self kwargs
      simp [wrapper_generator, wrapper_generator_async, generator_loop_spec]

/-- C9: wrapping a synchronous non-generator method with `mirascope_span`
while supplying neither a before hook nor an after hook is behavior
preserving: the wrapper returns exactly what the method returns and raises
exactly when it raises (and no hook event occurs). -/
theorem mirascope_span_no_hooks_preserves_behavior
    (σ κ α : Type) (fn : σ → κ → Except PyError α) (self : σ) (kwargs : κ) :
    mirascope_span_wrapper (γ := Unit) fn none false self kwargs =
      (fn self kwargs, []) := by
  cases h : fn self kwargs <;> simp [mirascope_span_wrapper, h]

/-- C7: the cost of a "gpt-4o" call with 1000 prompt tokens and 500
completion tokens is `1000 * 0.000005 + 500 * 0.000015 = 0.0125`. -/
theorem calculate_cost_gpt_4o_example :
    openai_api_calculate_cost (some ⟨1000, 500, 1500⟩) "gpt-4o" =
        some ((1000 : ℚ) * (5 / 1000000) + (500 : ℚ) * (15 / 1000000)) ∧
      (1000 : ℚ) * (5 / 1000000) + (500 : ℚ) * (15 / 1000000) = 0.0125 := by
  constructor
  · rfl
  · norm_num

/-- C8: for any model name not present in the static pricing table, cost
calculation returns the explicit "cost unknown" result `none` (and cannot
raise: the `KeyError` path is caught), whatever the usage value is. -/
theorem calculate_cost_unknown_model (model : String) (usage : Option CompletionUsage)
    (h : model ∉ pricing.map Prod.fst) :
    openai_api_calculate_cost usage model = none := by
  cases usage <;>
    simp [openai_api_calculate_cost, dictLookup_eq_none_of_not_mem_keys pricing model h]

/-- Witness for C8 at the concrete unknown model name "claude-3-opus". -/
theorem calculate_cost_unknown_model_witness :
    "claude-3-opus" ∉ (Mirascope.pricing).map Prod.fst ∧
      openai_api_calculate_cost (some ⟨1000, 500, 1500⟩) "claude-3-opus" = none :=
  ⟨by decide, calculate_cost_unknown_model "claude-3-opus" (some ⟨1000, 500, 1500⟩) (by decide)⟩

/-- C10: `get_class_vars` never exposes the key "api_key", and its result is
independent of the class's `api_key` attribute: two classes with the same
declared class variables whose attributes agree everywhere except possibly
at "api_key" yield identical results. -/
theorem get_class_vars_excludes_api_key {V : Type} (cls c1 c2 : PyClass V)
    (hvars : c1.class_vars = c2.class_vars)
    (hattrs : ∀ k, k ≠ "api_key" → c1.attrs k = c2.attrs k) :
    (∀ kv ∈ get_class_vars cls, kv.1 ≠ "api_key") ∧
      get_class_vars c1 = get_class_vars c2 := by
  constructor
  · exact get_class_vars_loop_no_api_key cls.attrs cls.class_vars [] (by simp)
  · unfold get_class_vars
    rw [hvars, get_class_vars_loop_congr c1.attrs c2.attrs hattrs]

/-- Witness for C10: two concrete classes differing only in `api_key`. -/
theorem get_class_vars_excludes_api_key_witness :
    (∀ kv ∈ get_class_vars
        (⟨["model_name", "api_key"], fun k => if k = "api_key" then "secret-1" else "public"⟩ :
          PyClass String), kv.1 ≠ "api_key") ∧
      get_class_vars
          (⟨["model_name", "api_key"], fun k => if k = "api_key" then "secret-1" else "public"⟩ :
            PyClass String) =
        get_class_vars
          (⟨["model_name", "api_key"], fun k => if k = "api_key" then "secret-2" else "public"⟩ :
            PyClass String) :=
  get_class_vars_excludes_api_key _ _ _ rfl (by intro k hk; simp [hk])

/-- C5: a stream whose aggregated final message is absent (not yet
consumed) makes `construct_call_response` raise an explicit `ValueError`
rather than return any response object; a fully consumed stream yields a
response without raising. -/
theorem construct_call_response_requires_consumed (s : OpenAIStreamState) :
    (s.message_param = none →
      construct_call_response s =
        Except.error
          (PyError.valueError "No stream response, check if the stream has been consumed.")) ∧
    (streamFullyConsumed s → ∃ r, construct_call_response s = Except.ok r) := by
  constructor
  · intro h
    simp [construct_call_response, h]
  · intro h
    match hm : s.message_param with
    | none => exact absurd hm h
    | some mp =>
        simp only [construct_call_response, hm]
        exact ⟨_, rfl⟩

/-- Witness for C5: a fresh stream state raises, a consumed one returns. -/
theorem construct_call_response_requires_consumed_witness :
    construct_call_response { message_param := none } =
        Except.error
          (PyError.valueError "No stream response, check if the stream has been consumed.") ∧
      ∃ r,
        construct_call_response
            { message_param := some ⟨"assistant", some "a recommendation", none⟩ } =
          Except.ok r :=
  ⟨(construct_call_response_requires_consumed _).1 rfl,
   (construct_call_response_requires_consumed _).2 (by simp [streamFullyConsumed])⟩


/-- Characterization of the JSON-mode walrus condition of `setup_extract`. -/
theorem response_format_json_mode_iff (v : Option ParamValue) :
    response_format_json_mode v = true ↔
      ∃ d, v = some (ParamValue.dict d) ∧ dictLookup d "type" = some "json_object" := by
  constructor
  · intro h
    match v with
    | some (ParamValue.dict d) =>
        refine ⟨d, rfl, ?_⟩
        simpa [response_format_json_mode] using h
    | some (ParamValue.str s) => simp [response_format_json_mode] at h
    | some (ParamValue.toolList ts) => simp [response_format_json_mode] at h
    | some ParamValue.noneVal => simp [response_format_json_mode] at h
    | none => simp [response_format_json_mode] at h
  · rintro ⟨d, rfl, hd⟩
    simp [response_format_json_mode, hd]

/-- C1 (amended): in `setup_call`, computed fields are merged into the
function arguments before placeholder substitution, and on a key present
both in the explicitly passed arguments and in the computed fields, the
COMPUTED FIELD value takes precedence in the merged mapping used for
substitution (Python `fn_args |= computed_fields`); `setup_call` parses
the docstring template with exactly that merged mapping. -/
theorem setup_call_computed_fields_precedence
    (fn_args cf : PyDict String) (k v : String) (d : String) (cp : PyDict ParamValue)
    (hnd : (cf.map Prod.fst).Nodup) (hk : dictLookup cf k = some v) :
    dictLookup (substitutionArgs fn_args (some cf)) k = some v ∧
      setup_call ⟨some d⟩ fn_args (some { computed_fields := some cf }) none cp =
        (parse_prompt_messages defaultOpenAIRoles d
            (substitutionArgs fn_args (some cf))).map
          (fun ms => (some d, ms, none, cp)) := by
  have hcf : cf.isEmpty = false := by
    cases cf with
    | nil => simp [dictLookup] at hk
    | cons hd tl => rfl
  constructor
  · unfold substitutionArgs
    simp only [hcf, Bool.false_eq_true, if_false]
    exact dictLookup_update_of_lookup_eq_some cf k v hnd hk fn_args
  · unfold setup_call setup_call_template_branch
    cases h : parse_prompt_messages defaultOpenAIRoles d
        (substitutionArgs fn_args (some cf)) with
    | error e => simp [h, Except.map]
    | ok ms => simp [h, Except.map]

/-- Counterexample to C1 as stated: with explicit argument `a = "explicit"`
and computed field `a = "computed"`, the merged mapping used for
substitution binds `a` to the computed value, and the parsed message
text is "computed", not "explicit". -/
theorem setup_call_computed_fields_counterexample :
    setup_call ⟨some "{a}"⟩ [("a", "explicit")]
        (some { computed_fields := some [("a", "computed")] }) none [] =
      Except.ok (some "{a}", [⟨"user", "computed"⟩], none, []) ∧
    dictLookup (substitutionArgs [("a", "explicit")] (some [("a", "computed")])) "a" ≠
      some "explicit" := by
  constructor
  · rfl
  · intro h
    simp [substitutionArgs, dictUpdate, dictInsert, dictLookup] at h

/-- Witness for the amended C1 at concrete colliding dictionaries. -/
theorem setup_call_computed_fields_precedence_witness :
    dictLookup (substitutionArgs [("a", "x")] (some [("a", "y")])) "a" = some "y" ∧
      setup_call ⟨some "{a}"⟩ [("a", "x")]
          (some { computed_fields := some [("a", "y")] }) none [] =
        (parse_prompt_messages defaultOpenAIRoles "{a}"
            (substitutionArgs [("a", "x")] (some [("a", "y")]))).map
          (fun ms => (some "{a}", ms, none, [])) :=
  setup_call_computed_fields_precedence [("a", "x")] [("a", "y")] "a" "y" "{a}" []
    (by decide) (by decide)

/-- C2 (amended): when the dynamic return supplies an explicit non-empty
message list, `setup_call` skips the template parser entirely and returns
exactly the supplied list, and the first tuple component (the prompt
template) is `None` in this path: the docstring is NOT captured. -/
theorem setup_call_supplied_messages (fn : PromptFn) (fn_args : PyDict String)
    (fr : FnReturn) (ms : List Message) (tools : Option (List OpenAITool))
    (cp : PyDict ParamValue) (hms : fr.messages = some ms) (hne : ms ≠ []) :
    ∃ tt ck, setup_call fn fn_args (some fr) tools cp = Except.ok (none, ms, tt, ck) := by
  have hempty : ms.isEmpty = false := by
    cases ms with
    | nil => exact absurd rfl hne
    | cons a l => rfl
  unfold setup_call
  simp only [hms, hempty, Bool.false_eq_true, if_false]
  exact ⟨_, _, rfl⟩

/-- Counterexample to C2 as stated: a function whose docstring is "Hello"
with a supplied message list yields `None` as the first tuple component,
not the docstring text. -/
theorem setup_call_supplied_messages_counterexample :
    setup_call ⟨some "Hello"⟩ [] (some { messages := some [⟨"user", "m"⟩] }) none [] =
        Except.ok (none, [⟨"user", "m"⟩], none, []) ∧
      (none : Option String) ≠ some "Hello" := by
  constructor
  · rfl
  · simp

/-- Witness for the amended C2 at a concrete supplied message list. -/
theorem setup_call_supplied_messages_witness :
    ∃ tt ck,
      setup_call ⟨some "doc"⟩ [] (some { messages := some [⟨"assistant", "ok"⟩] }) none [] =
        Except.ok (none, [⟨"assistant", "ok"⟩], tt, ck) :=
  setup_call_supplied_messages ⟨some "doc"⟩ [] { messages := some [⟨"assistant", "ok"⟩] }
    [⟨"assistant", "ok"⟩] none [] rfl (by simp)

/-- C3: `setup_extract` suppresses tool-based extraction if and only if the
merged call params carry a `response_format` whose "type" equals
"json_object": in JSON mode the "tools" entry is set to `None` and a
user message holding the extraction instruction plus the tool's JSON
schema text is appended last; otherwise the tool schema is installed with
`tool_choice = "required"` and no message is appended. -/
theorem setup_extract_json_mode (fn : PromptFn) (fn_args : PyDict String)
    (fn_return : Option FnReturn) (tool : OpenAITool) (cp : PyDict ParamValue)
    (pt : Option String) (bmsgs : List Message) (tt : OpenAITool) (ck : PyDict ParamValue)
    (hcall : setup_call fn fn_args fn_return (some [tool]) cp =
      Except.ok (pt, bmsgs, some [tt], ck)) :
    ∃ jm msgs ck2,
      setup_extract fn fn_args fn_return tool cp = Except.ok (jm, msgs, ck2) ∧
      (jm = true ↔ ∃ d, dictLookup ck "response_format" = some (ParamValue.dict d) ∧
          dictLookup d "type" = some "json_object") ∧
      (jm = true →
        msgs = bmsgs ++ [⟨"user", extraction_instruction tt⟩] ∧
        dictLookup ck2 "tools" = some ParamValue.noneVal) ∧
      (jm = false →
        msgs = bmsgs ∧
        dictLookup ck2 "tools" = some (ParamValue.toolList [tool_schema tt]) ∧
        dictLookup ck2 "tool_choice" = some (ParamValue.str "required")) := by
  unfold setup_extract
  rw [hcall]
  cases hjm : response_format_json_mode (dictLookup ck "response_format") with
  | true =>
      refine ⟨true, bmsgs ++ [⟨"user", extraction_instruction tt⟩],
        dictInsert ck "tools" ParamValue.noneVal, by simp [hjm], ?_, ?_, ?_⟩
      · rw [← response_format_json_mode_iff]
        simp [hjm]
      · intro _
        refine ⟨rfl, ?_⟩
        rw [dictLookup_insert]
        simp
      · simp
  | false =>
      refine ⟨false, bmsgs,
        dictInsert (dictInsert ck "tools" (ParamValue.toolList [tool_schema tt]))
          "tool_choice" (ParamValue.str "required"), by simp [hjm], ?_, ?_, ?_⟩
      · rw [← response_format_json_mode_iff]
        simp [hjm]
      · simp
      · intro _
        refine ⟨rfl, ?_, ?_⟩
        · rw [dictLookup_insert, if_neg (by decide), dictLookup_insert]
          simp
        · rw [dictLookup_insert]
          simp

/-- Witness for C3 at a concrete JSON-mode call-params dict. -/
theorem setup_extract_json_mode_witness :
    ∃ jm msgs ck2,
      setup_extract ⟨some "doc"⟩ [] (some { messages := some [⟨"user", "content"⟩] })
          ⟨"Book", "book schema"⟩
          [("response_format", ParamValue.dict [("type", "json_object")])] =
        Except.ok (jm, msgs, ck2) ∧
      (jm = true ↔ ∃ d,
          dictLookup
              [("response_format", ParamValue.dict [("type", "json_object")]),
               ("tools", ParamValue.toolList [⟨"Book", "book schema"⟩])]
              "response_format" = some (ParamValue.dict d) ∧
          dictLookup d "type" = some "json_object") ∧
      (jm = true →
        msgs = [⟨"user", "content"⟩] ++
            [⟨"user", extraction_instruction ⟨"Book", "book schema"⟩⟩] ∧
        dictLookup ck2 "tools" = some ParamValue.noneVal) ∧
      (jm = false →
        msgs = [⟨"user", "content"⟩] ∧
        dictLookup ck2 "tools" =
          some (ParamValue.toolList [tool_schema ⟨"Book", "book schema"⟩]) ∧
        dictLookup ck2 "tool_choice" = some (ParamValue.str "required")) :=
  setup_extract_json_mode ⟨some "doc"⟩ [] (some { messages := some [⟨"user", "content"⟩] })
    ⟨"Book", "book schema"⟩
    [("response_format", ParamValue.dict [("type", "json_object")])]
    none [⟨"user", "content"⟩] ⟨"Book", "book schema"⟩
    [("response_format", ParamValue.dict [("type", "json_object")]),
     ("tools", ParamValue.toolList [⟨"Book", "book schema"⟩])]
    rfl


/-- The malformed-input state is absorbing. -/
theorem foldl_jsonStep_jerr (b : List Char) :
    b.foldl jsonStep JState.jerr = JState.jerr := by
  induction b with
  | nil => rfl
  | cons c cs ih => exact ih

/-- A prefix of an input the parser does not reject is not rejected. -/
theorem jsonRun_prefix_ne_jerr (s r : List Char) (h : jsonRun (s ++ r) ≠ JState.jerr) :
    jsonRun s ≠ JState.jerr := by
  intro hs
  apply h
  rw [jsonRun, List.foldl_append]
  rw [jsonRun] at hs
  rw [hs]
  exact foldl_jsonStep_jerr r

/-- Lenient decoding fails exactly on inputs the parser rejects as
malformed (not on inputs that merely end early). -/
theorem parseLenient_eq_none_iff (s : String) :
    parseLenient s = none ↔ jsonRun s.toList = JState.jerr := by
  unfold parseLenient
  cases jsonRun s.toList <;> simp

/-- Any prefix of a strictly decodable fragment decodes leniently. -/
theorem parseLenient_some_of_prefix (s t r : String) (hp : t = s ++ r)
    (m0 : List (String × String)) (hstrict : parseStrict t = some m0) :
    ∃ m, parseLenient s = some m := by
  have htl : t.toList = s.toList ++ r.toList := by
    rw [hp]
    simp [String.toList, String.data_append]
  have hne : jsonRun t.toList ≠ JState.jerr := by
    intro hh
    rw [parseStrict, hh] at hstrict
    simp at hstrict
  have hs : jsonRun s.toList ≠ JState.jerr := by
    apply jsonRun_prefix_ne_jerr s.toList r.toList
    rw [← htl]
    exact hne
  have hnn : parseLenient s ≠ none := fun hc => hs ((parseLenient_eq_none_iff s).1 hc)
  exact Option.ne_none_iff_exists'.1 hnn

/-- C6: for every response model and every fragment that is a strict
prefix of a fragment on which strict decoding succeeds, decoding with
`allow_partial` true does not raise, and every schema field not yet
resolvable from the fragment is populated with the "not yet known"
sentinel (resolved fields keep their values). -/
theorem extract_tool_return_partial_prefix (fields : List String) (s t r : String)
    (hp : t = s ++ r) (_hr : r ≠ "")
    (out : List (String × FieldValue))
    (hok : extract_tool_return fields t false = some out) :
    ∃ m out2, parseLenient s = some m ∧
      extract_tool_return fields s true = some out2 ∧
      ∀ f ∈ fields,
        (dictLookup m f = none → (f, FieldValue.notYetKnown) ∈ out2) ∧
        ∀ v, dictLookup m f = some v → (f, FieldValue.known v) ∈ out2 := by
  have hstrict : ∃ m0, parseStrict t = some m0 := by
    unfold extract_tool_return at hok
    simp only [Bool.false_eq_true, if_false] at hok
    cases hps : parseStrict t with
    | none => rw [hps] at hok; simp at hok
    | some m0 => exact ⟨m0, rfl⟩
  obtain ⟨m0, hm0⟩ := hstrict
  obtain ⟨m, hm⟩ := parseLenient_some_of_prefix s t r hp m0 hm0
  refine ⟨m,
    fields.map (fun f =>
      (f, match dictLookup m f with
          | some v => FieldValue.known v
          | none => FieldValue.notYetKnown)),
    hm, by simp [extract_tool_return, hm], ?_⟩
  intro f hf
  constructor
  · intro hnone
    exact List.mem_map.mpr ⟨f, hf, by simp [hnone]⟩
  · intro v hv
    exact List.mem_map.mpr ⟨f, hf, by simp [hv]⟩

/-- Witness for C6: the fragment cut mid-string inside the "title" value
decodes leniently, while the full fragment decodes strictly. -/
theorem extract_tool_return_partial_prefix_witness :
    ∃ m out2,
      parseLenient "\x7b\"title\": \"ab" = some m ∧
      extract_tool_return ["title", "author"] "\x7b\"title\": \"ab" true = some out2 ∧
      ∀ f ∈ ["title", "author"],
        (dictLookup m f = none → (f, FieldValue.notYetKnown) ∈ out2) ∧
        ∀ v, dictLookup m f = some v → (f, FieldValue.known v) ∈ out2 :=
  extract_tool_return_partial_prefix ["title", "author"]
    "\x7b\"title\": \"ab"
    "\x7b\"title\": \"abc\", \"author\": \"xyz\"\x7d"
    "c\", \"author\": \"xyz\"\x7d"
    (by decide) (by decide)
    [("title", FieldValue.known "abc"), ("author", FieldValue.known "xyz")]
    rfl

end Mirascope
